import Mathlib

/-!
Verification of the Zotion sync engine (src/zotion.py).

The Python module is shallowly embedded: pure helpers (`format_date`, the
author parsing inside `parse_zotero_csv`) become Lean functions on strings;
the network-facing functions (`get_existing_notion_titles`,
`get_database_properties`, `push_to_notion`) become functions over an explicit
environment that supplies the response of each HTTP call, and they return the
observable trace (log lines via the `logger` callback, the sequence of
creation requests POSTed) together with their Python return value.
-/

namespace Zotion

/-! ## Python string primitives -/

/-- Characters stripped by Python `str.strip()` (ASCII whitespace:
space, tab, newline, carriage return, vertical tab, form feed). -/
def isPySpace (c : Char) : Bool :=
  c = ' ' || c = '\t' || c = '\n' || c = '\r' || c = '\x0b' || c = '\x0c'

/-- `str.strip()` on the character list: drop leading and trailing whitespace. -/
def stripChars (l : List Char) : List Char :=
  ((l.dropWhile isPySpace).reverse.dropWhile isPySpace).reverse

/-- Python `s.strip()`. -/
def pyStrip (s : String) : String :=
  ⟨stripChars s.data⟩

/-- First split of a character list at `sep`, if `sep` occurs:
`some (before, after)` splitting at the first occurrence. -/
def splitOnceChars (sep : Char) : List Char → Option (List Char × List Char)
  | [] => none
  | c :: rest =>
    if c = sep then some ([], rest)
    else
      match splitOnceChars sep rest with
      | some (l, r) => some (c :: l, r)
      | none => none

/-- Python `s.split(sep, 1)` for a one-character separator: at most one split,
at the first occurrence; the whole string when `sep` does not occur. -/
def pySplitOnce (sep : Char) (s : String) : List String :=
  match splitOnceChars sep s.data with
  | some (l, r) => [⟨l⟩, ⟨r⟩]
  | none => [s]

/-- Python `s.split(sep)` for a one-character separator: split at every
occurrence, keeping empty pieces (`"".split(";") == [""]`,
`"a;;b".split(";") == ["a", "", "b"]`). -/
def splitCharAux (sep : Char) : List Char → List Char → List String
  | [], cur => [⟨cur.reverse⟩]
  | c :: rest, cur =>
    if c = sep then ⟨cur.reverse⟩ :: splitCharAux sep rest []
    else splitCharAux sep rest (c :: cur)

def pySplitChar (sep : Char) (s : String) : List String :=
  splitCharAux sep s.data []

/-- Prefix test on character lists. -/
def isPrefixChars : List Char → List Char → Bool
  | [], _ => true
  | _ :: _, [] => false
  | p :: ps, c :: cs => p = c && isPrefixChars ps cs

/-- Python `s.startswith(pre)`. -/
def pyStartsWith (s pre : String) : Bool := isPrefixChars pre.data s.data

/-- Python truthiness of an optional string (`None` and `""` are falsy). -/
def pyTruthy : Option String → Bool
  | none => false
  | some s => !s.isEmpty

/-- Python `str(x)` of an `Optional[str]` (as in an f-string): `None` prints
as `"None"`. -/
def optToPyStr : Option String → String
  | none => "None"
  | some s => s

/-! ## Date Normalizer (`format_date`)

`format_date` calls `datetime.strptime(date_str, fmt)` for each format in
`("%Y-%m-%d", "%Y-%m", "%m/%Y", "%Y")` and returns `dt.strftime("%Y-%m-%d")`
for the first that does not raise `ValueError`, else `None`.

CPython's `_strptime` compiles each format into a regex
(`%Y ↦ \d\d\d\d`, `%m ↦ 1[0-2]|0[1-9]|[1-9]`, `%d ↦ 3[01]|[12]\d|0[1-9]|[1-9]`),
matches it against a *prefix* of the input (backtracking inside the regex, with
alternatives tried in the order written), raises `ValueError` when no match or
when unconverted data remains after the match, and finally builds a
`datetime`, which raises `ValueError` for an out-of-range component (e.g.
year 0000 or Feb 31). The parsers below mirror exactly that: a depth-first
search in alternation order producing the first full-pattern match together
with its leftover, then the leftover-empty check, then calendar validation. -/

/-- Decimal digit test (regex `\d` on ASCII input). -/
def isDig (c : Char) : Bool := '0' ≤ c && c ≤ '9'

/-- Value of a decimal digit character. -/
def digVal (c : Char) : Nat := c.toNat - '0'.toNat

/-- Regex fragment for `%Y`: exactly four digits. Returns the year and the
remaining characters. -/
def parseY4 : List Char → Option (Nat × List Char)
  | a :: b :: c :: d :: rest =>
    if isDig a && isDig b && isDig c && isDig d then
      some (1000 * digVal a + 100 * digVal b + 10 * digVal c + digVal d, rest)
    else none
  | _ => none

/-- Regex fragment for `%m` (`1[0-2]|0[1-9]|[1-9]`): the candidate
(month, rest) pairs in alternation order. -/
def monthCands : List Char → List (Nat × List Char)
  | a :: b :: rest =>
    (if a = '1' && ('0' ≤ b && b ≤ '2') then [(10 + digVal b, rest)] else []) ++
    (if a = '0' && ('1' ≤ b && b ≤ '9') then [(digVal b, rest)] else []) ++
    (if '1' ≤ a && a ≤ '9' then [(digVal a, b :: rest)] else [])
  | [a] => if '1' ≤ a && a ≤ '9' then [(digVal a, [])] else []
  | [] => []

/-- Regex fragment for `%d` (`3[01]|[12]\d|0[1-9]|[1-9]`): the candidate
(day, rest) pairs in alternation order. -/
def dayCands : List Char → List (Nat × List Char)
  | a :: b :: rest =>
    (if a = '3' && (b = '0' || b = '1') then [(30 + digVal b, rest)] else []) ++
    (if (a = '1' || a = '2') && isDig b then [(10 * digVal a + digVal b, rest)] else []) ++
    (if a = '0' && ('1' ≤ b && b ≤ '9') then [(digVal b, rest)] else []) ++
    (if '1' ≤ a && a ≤ '9' then [(digVal a, b :: rest)] else [])
  | [a] => if '1' ≤ a && a ≤ '9' then [(digVal a, [])] else []
  | [] => []

/-- First alternative (in order) on which the continuation succeeds:
regex backtracking through an alternation. -/
def firstSome (f : α → Option β) : List α → Option β
  | [] => none
  | a :: rest =>
    match f a with
    | some b => some b
    | none => firstSome f rest

/-- Regex match for format `"%Y-%m-%d"`: first match in backtracking order,
with leftover input. -/
def matchYMD (l : List Char) : Option (Nat × Nat × Nat × List Char) :=
  match parseY4 l with
  | some (y, '-' :: r2) =>
    firstSome (fun (mr : Nat × List Char) =>
      match mr.2 with
      | '-' :: r4 =>
        firstSome (fun (dr : Nat × List Char) => some (y, mr.1, dr.1, dr.2)) (dayCands r4)
      | _ => none) (monthCands r2)
  | _ => none

/-- Regex match for format `"%Y-%m"`. -/
def matchYM (l : List Char) : Option (Nat × Nat × List Char) :=
  match parseY4 l with
  | some (y, '-' :: r2) =>
    firstSome (fun (mr : Nat × List Char) => some (y, mr.1, mr.2)) (monthCands r2)
  | _ => none

/-- Regex match for format `"%m/%Y"`. -/
def matchMY (l : List Char) : Option (Nat × Nat × List Char) :=
  firstSome (fun (mr : Nat × List Char) =>
    match mr.2 with
    | '/' :: r2 =>
      match parseY4 r2 with
      | some (y, rest) => some (mr.1, y, rest)
      | none => none
    | _ => none) (monthCands l)

/-- `datetime` leap-year rule. -/
def isLeap (y : Nat) : Bool := y % 4 = 0 && (y % 100 ≠ 0 || y % 400 = 0)

/-- Days in a month, as validated by the `datetime` constructor. -/
def daysInMonth (y m : Nat) : Nat :=
  if m = 2 then (if isLeap y then 29 else 28)
  else if m = 4 || m = 6 || m = 9 || m = 11 then 30
  else 31

/-- `datetime(y, m, d)` succeeds (the regex already bounds `m` and forces
`d ≥ 1`, `m ≥ 1`; the constructor additionally rejects year 0 and
out-of-range days). -/
def validDate (y m d : Nat) : Bool :=
  1 ≤ y && y ≤ 9999 && 1 ≤ m && m ≤ 12 && 1 ≤ d && d ≤ daysInMonth y m

/-- `datetime.strptime(s, "%Y-%m-%d")`: `some (y, m, d)` on success, `none`
when it raises `ValueError` (no match, unconverted data, or invalid date). -/
def strptimeYMD (s : String) : Option (Nat × Nat × Nat) :=
  match matchYMD s.data with
  | some (y, m, d, []) => if validDate y m d then some (y, m, d) else none
  | _ => none

/-- `datetime.strptime(s, "%Y-%m")` (day defaults to 1). -/
def strptimeYM (s : String) : Option (Nat × Nat) :=
  match matchYM s.data with
  | some (y, m, []) => if validDate y m 1 then some (y, m) else none
  | _ => none

/-- `datetime.strptime(s, "%m/%Y")` (day defaults to 1). -/
def strptimeMY (s : String) : Option (Nat × Nat) :=
  match matchMY s.data with
  | some (m, y, []) => if validDate y m 1 then some (y, m) else none
  | _ => none

/-- `datetime.strptime(s, "%Y")` (month and day default to 1). -/
def strptimeY (s : String) : Option Nat :=
  match parseY4 s.data with
  | some (y, []) => if validDate y 1 1 then some y else none
  | _ => none

/-- Zero-pad a numeral to `w` characters.  (CPython documents `%Y` as
zero-padded; C libraries differ on years below 1000, which can only arise
here from a four-digit input with leading zeros such as `"0005"`. We follow
the documented behavior; all inputs with years ≥ 1000 are unaffected.) -/
def padNum (w n : Nat) : String :=
  let s := toString n
  ⟨List.replicate (w - s.length) '0' ++ s.data⟩

/-- `dt.strftime("%Y-%m-%d")`. -/
def fmtYMD (y m d : Nat) : String :=
  padNum 4 y ++ "-" ++ padNum 2 m ++ "-" ++ padNum 2 d

/-- `format_date` from src/zotion.py: convert various date strings to
ISO 8601 `YYYY-MM-DD`, trying the formats `%Y-%m-%d`, `%Y-%m`, `%m/%Y`,
`%Y` in order; `None` for the empty string or when no format accepts the
input. -/
def format_date (dateStr : String) : Option String :=
  if dateStr.isEmpty then none
  else
    match strptimeYMD dateStr with
    | some (y, m, d) => some (fmtYMD y m d)
    | none =>
      match strptimeYM dateStr with
      | some (y, m) => some (fmtYMD y m 1)
      | none =>
        match strptimeMY dateStr with
        | some (y, m) => some (fmtYMD y m 1)
        | none =>
          match strptimeY dateStr with
          | some y => some (fmtYMD y 1 1)
          | none => none

/-! ## CSV Record Parser (`parse_zotero_csv`)

File IO is abstracted away: the parser is modelled from the row level on.
A `Row` is what `csv.DictReader` yields restricted to the four recognized
columns; a column absent from the header is an absent key (`none`). -/

/-- One CSV data row: the values of the four recognized columns,
`none` when the column is absent. -/
structure Row where
  title : Option String
  author : Option String
  date : Option String
  doi : Option String
deriving DecidableEq, Repr

/-- A parsed bibliographic item (the dict appended to `items`). -/
structure Item where
  title : String
  authors : List String
  date : String
  doi : String
deriving DecidableEq, Repr

/-- The body of the author loop in `parse_zotero_csv` for one raw entry
(one piece of `row.get('Author','').split(';')`): strip; if it contains a
comma, split once at the comma, strip the parts and emit "First Last"
(the `except ValueError` fallback appends the entry verbatim); otherwise
keep a non-empty entry verbatim and drop an empty one. -/
def processAuthor (authors : List String) (raw : String) : List String :=
  let author := pyStrip raw
  if ',' ∈ author.data then
    match (pySplitOnce ',' author).map pyStrip with
    | [last, first] => authors ++ [first ++ " " ++ last]
    | _ => authors ++ [author]
  else if author.isEmpty then authors
  else authors ++ [author]

/-- The author field of a row turned into the `authors` list:
`row.get('Author', '').split(';')` followed by the per-entry loop. -/
def parseAuthors (field : String) : List String :=
  (pySplitChar ';' field).foldl processAuthor []

/-- The item dict built for one kept row. -/
def rowItem (row : Row) : Item :=
  { title := row.title.getD "No Title Provided"
    authors := parseAuthors (row.author.getD "")
    date := row.date.getD ""
    doi := row.doi.getD "" }

/-- `parse_zotero_csv` from the row level on: keep each row whose `Title`
is truthy (present and non-empty), in row order. -/
def parse_zotero_csv (rows : List Row) : List Item :=
  rows.foldl (fun items row =>
    if pyTruthy row.title then items ++ [rowItem row] else items) []

/-! ## Remote Title Index (`get_existing_notion_titles`)

Each iteration of the `while has_more` loop performs one POST; the
environment supplies the outcome of successive fetches as a list. A
`RequestException` (from the request itself or `raise_for_status`) is a
`Fetch.err`; running out of supplied responses is also modelled as a
transport failure (in reality every request either returns or raises). -/

/-- The relevant shape of one record returned by the query endpoint: the
segment lists found under `properties[k]["title"]` for the three candidate
keys, each segment reduced to its `["text"]["content"]` (which `dict.get`
makes `None` when absent). -/
structure NRecord where
  titleProp : List (Option String)
  nameProp : List (Option String)
  lowerTitleProp : List (Option String)
deriving DecidableEq, Repr

/-- One page of query results. -/
structure NPage where
  results : List NRecord
  hasMore : Bool
deriving DecidableEq, Repr

/-- Outcome of one page fetch. -/
inductive Fetch where
  | err (msg : String)
  | ok (page : NPage)
deriving DecidableEq, Repr

/-- The title extracted from one record: for the keys `"Title"`, `"Name"`,
`"title"` in order, the first whose `title` segment list is non-empty
contributes its first segment's content (then `break`). -/
def recordTitle (r : NRecord) : Option (Option String) :=
  match r.titleProp with
  | seg :: _ => some seg
  | [] =>
    match r.nameProp with
    | seg :: _ => some seg
    | [] =>
      match r.lowerTitleProp with
      | seg :: _ => some seg
      | [] => none

/-- Python `set.add` on the insertion-ordered list model of a set. -/
def setAdd (acc : List (Option String)) (v : Option String) : List (Option String) :=
  if v ∈ acc then acc else acc ++ [v]

/-- Insert the titles of one page of records into the set. -/
def addPageTitles (acc : List (Option String)) (page : NPage) : List (Option String) :=
  page.results.foldl (fun acc r =>
    match recordTitle r with
    | some v => setAdd acc v
    | none => acc) acc

/-- The `while has_more` loop of `get_existing_notion_titles`. On a fetch
error it logs and re-raises: the error propagates, carrying no titles. -/
def fetchTitlesLoop : List Fetch → List (Option String) → List String →
    Except (String × List String) (List (Option String) × List String)
  | [], _, log => .error ("connection failed", log ++
      ["Failed to fetch existing pages from Notion: connection failed"])
  | .err msg :: _, _, log => .error (msg, log ++
      ["Failed to fetch existing pages from Notion: " ++ msg])
  | .ok page :: rest, acc, log =>
    let acc := addPageTitles acc page
    if page.hasMore then fetchTitlesLoop rest acc log
    else .ok (acc, log)

/-- `get_existing_notion_titles`: run the pagination loop from an empty
set, then log the final count. The `Except` error case carries only the
message and the log — never a partial index. -/
def get_existing_notion_titles (fetches : List Fetch) (log : List String) :
    Except (String × List String) (List (Option String) × List String) :=
  match fetchTitlesLoop fetches [] log with
  | .error e => .error e
  | .ok (titles, log) =>
    .ok (titles, log ++ ["Found " ++ toString titles.length ++ " existing titles in Notion."])

/-! ## Schema Inspector (`get_database_properties`) -/

/-- Outcome of the one schema GET: a `RequestException`, or the
`properties` object reduced to `name ↦ definition.get("type")`. -/
inductive SchemaFetch where
  | err (msg : String)
  | ok (props : List (String × Option String))
deriving DecidableEq, Repr

/-- `get_database_properties`: returns the `k ↦ v.get("type")` map, or
logs and re-raises on a transport/HTTP error. -/
def get_database_properties (fetch : SchemaFetch) (log : List String) :
    Except (String × List String) (List (String × Option String) × List String) :=
  match fetch with
  | .err msg => .error (msg, log ++ ["Could not fetch database schema: " ++ msg])
  | .ok props => .ok (props, log)

/-! ## Sync Orchestrator (`push_to_notion`) -/

/-- A property value in a creation request, shaped per field type
(`title`/`rich_text`: one text segment; `url`: a string; `date`: a start
date). -/
inductive PropValue where
  | title (content : String)
  | richText (content : String)
  | url (s : String)
  | date (start : String)
deriving DecidableEq, Repr

/-- The `properties` object of a creation request, in insertion order. -/
abbrev Props := List (String × PropValue)

/-- Encoding of the DOI value per the effective field type: a URL value
when the type is `"url"`, a text value otherwise (lines 151–154). -/
def doiProp (doiType : Option String) (doiUrl : String) : PropValue :=
  if doiType = some "url" then .url doiUrl else .richText doiUrl

/-- The `properties` dict built for one non-skipped item (the body of the
else-branch before the POST). -/
def buildProperties (doiType : Option String) (item : Item) : Props :=
  let authorsText := if item.authors.isEmpty then "Unknown" else String.intercalate ", " item.authors
  let doiValue : Option String := if item.doi.isEmpty then none else some (pyStrip item.doi)
  let dateIso : Option String := format_date item.date
  let base : Props := [("Title", .title item.title), ("Authors", .richText authorsText)]
  let withDate : Props :=
    match dateIso with
    | some d => base ++ [("Date", .date d)]
    | none => base
  match doiValue with
  | some dv =>
    if dv.isEmpty then withDate
    else
      let doiUrl := if pyStartsWith dv "http" then dv else "https://doi.org/" ++ dv
      withDate ++ [("DOI", doiProp doiType doiUrl)]
  | none => withDate

/-- A submission failure: the exception text and, when the exception has a
usable response, its body (`e.response.text`). -/
structure SubmitError where
  msg : String
  detail : Option String
deriving DecidableEq, Repr

/-- Outcome of one creation POST. -/
inductive SubmitResult where
  | ok
  | err (e : SubmitError)
deriving DecidableEq, Repr

/-- Log lines emitted for a failed submission: the error line, and the
`Reason` line when the exception carries a response body. -/
def submitFailLog (title : String) (e : SubmitError) : List String :=
  ("Failed to push '" ++ title ++ "': " ++ e.msg) ::
    (match e.detail with
     | some d => ["   Reason: " ++ d]
     | none => [])

/-- The mutable state of the per-item loop: the two counters, the trace of
creation POSTs actually issued (request and outcome, in order), and the log. -/
structure LoopState where
  pushed : Nat
  skipped : Nat
  attempts : List (Props × SubmitResult)
  log : List String
deriving DecidableEq, Repr

/-- One iteration of the per-item loop of `push_to_notion`: skip an item
whose title is in the existing set; otherwise build its properties and POST,
counting a success and logging, or logging a failure and moving on. The
environment `submit` gives the outcome of the n-th POST of the run. -/
def stepItem (existing : List (Option String)) (doiType : Option String)
    (submit : Nat → SubmitResult) (st : LoopState) (item : Item) : LoopState :=
  if some item.title ∈ existing then
    { st with
      skipped := st.skipped + 1
      log := st.log ++ ["Skipping existing item: " ++ item.title] }
  else
    let props := buildProperties doiType item
    match submit st.attempts.length with
    | .ok =>
      { st with
        pushed := st.pushed + 1
        attempts := st.attempts ++ [(props, .ok)]
        log := st.log ++ ["Pushed: " ++ item.title] }
    | .err e =>
      { st with
        attempts := st.attempts ++ [(props, .err e)]
        log := st.log ++ submitFailLog item.title e }

/-- The whole per-item loop. -/
def pushLoop (existing : List (Option String)) (doiType : Option String)
    (submit : Nat → SubmitResult) (items : List Item) (st : LoopState) : LoopState :=
  items.foldl (stepItem existing doiType submit) st

/-- The record of counts named by the collaborator interface
(`{pushed: int, skipped: int}`). -/
structure SyncResult where
  pushed : Nat
  skipped : Nat
deriving DecidableEq, Repr

/-- Result of a `push_to_notion` call: a fatal error propagated from the
index or schema build (message and log so far — no counts, no trace), or
normal completion with the final loop state and the function's Python
return value. -/
inductive PushResult where
  | fatal (msg : String) (log : List String)
  | done (st : LoopState) (ret : Option SyncResult)
deriving DecidableEq, Repr

/-- The environment of one run: the query-page fetch outcomes, the schema
fetch outcome, and the outcome of each creation POST by its index. -/
structure PushEnv where
  titleFetches : List Fetch
  schemaFetch : SchemaFetch
  submit : Nat → SubmitResult

/-- `prop_types.get("DOI", "rich_text")`: the stored value (itself possibly
`None`) when the key is present, the default otherwise. -/
def doiTypeOf (propTypes : List (String × Option String)) : Option String :=
  match propTypes.lookup "DOI" with
  | some v => v
  | none => some "rich_text"

/-- The final log line of a run (line 171). -/
def finishLog (st : LoopState) : LoopState :=
  { st with log := st.log ++
      ["Finished. pushed=" ++ toString st.pushed ++ ", skipped=" ++ toString st.skipped] }

/-- `push_to_notion` from src/zotion.py: build the title index and the
schema map up front (either failure aborts the run), determine the DOI
field type (`"rich_text"` default when the key is absent), run the
per-item loop, and log the final counts. The Python function ends without
a `return` statement, so its value is `None`. -/
def push_to_notion (items : List Item) (env : PushEnv) : PushResult :=
  match get_existing_notion_titles env.titleFetches [] with
  | .error (msg, log) => .fatal msg log
  | .ok (existing, log) =>
    match get_database_properties env.schemaFetch log with
    | .error (msg, log) => .fatal msg log
    | .ok (propTypes, log) =>
      let doiType := doiTypeOf propTypes
      let log := log ++ ["DOI property type: " ++ optToPyStr doiType]
      .done
        (finishLog (pushLoop existing doiType env.submit items
          { pushed := 0, skipped := 0, attempts := [], log := log }))
        none

/-- The loop state of a completed run, `none` for a fatal abort. -/
def doneState : PushResult → Option LoopState
  | .done st _ => some st
  | .fatal _ _ => none

/-- The Python return value of a completed run. -/
def pushRet : PushResult → Option SyncResult
  | .done _ r => r
  | .fatal _ _ => none

/-- Whether a POST outcome is a failure. -/
def isErr : SubmitResult → Bool
  | .ok => false
  | .err _ => true

/-- Number of failed creation POSTs in a trace. -/
def errCount (l : List (Props × SubmitResult)) : Nat :=
  l.countP (fun p => isErr p.2)

/-- Number of successful creation POSTs in a trace. -/
def okCount (l : List (Props × SubmitResult)) : Nat :=
  l.countP (fun p => !isErr p.2)

/-- Concrete items and environment for the scenario of §8 of the spec:
one existing remote title "Paper A", local items "Paper A" and "Paper B". -/
def itemA : Item := { title := "Paper A", authors := [], date := "", doi := "" }

def itemB : Item := { title := "Paper B", authors := ["Jane Doe"], date := "2020-05", doi := "10.1/xyz" }

def envAB : PushEnv :=
  { titleFetches := [Fetch.ok
      { results := [{ titleProp := [some "Paper A"], nameProp := [], lowerTitleProp := [] }]
        hasMore := false }]
    schemaFetch := SchemaFetch.ok [("DOI", some "url")]
    submit := fun _ => SubmitResult.ok }

/-! ## Loop invariants of the per-item loop -/

theorem errCount_snoc (l : List (Props × SubmitResult)) (x : Props × SubmitResult) :
    errCount (l ++ [x]) = errCount l + (if isErr x.2 then 1 else 0) := by
  simp [errCount, List.countP_append, List.countP_cons]

theorem okCount_snoc (l : List (Props × SubmitResult)) (x : Props × SubmitResult) :
    okCount (l ++ [x]) = okCount l + (if isErr x.2 then 0 else 1) := by
  rcases h : isErr x.2 <;>
    simp [okCount, List.countP_append, List.countP_cons, h]

theorem pushLoop_cons (ex : List (Option String)) (dt : Option String)
    (sub : Nat → SubmitResult) (it : Item) (rest : List Item) (st : LoopState) :
    pushLoop ex dt sub (it :: rest) st = pushLoop ex dt sub rest (stepItem ex dt sub st it) :=
  rfl

theorem stepItem_fields (ex : List (Option String)) (dt : Option String)
    (sub : Nat → SubmitResult) (st : LoopState) (it : Item) :
    ((stepItem ex dt sub st it).pushed + (stepItem ex dt sub st it).skipped
        + errCount (stepItem ex dt sub st it).attempts
      = st.pushed + st.skipped + errCount st.attempts + 1) ∧
    ((stepItem ex dt sub st it).pushed + okCount st.attempts
      = st.pushed + okCount (stepItem ex dt sub st it).attempts) ∧
    ((stepItem ex dt sub st it).skipped + (stepItem ex dt sub st it).attempts.length
      = st.skipped + st.attempts.length + 1) := by
  unfold stepItem
  split
  · simp; omega
  · split
    · simp [errCount_snoc, okCount_snoc, isErr]; omega
    · simp [errCount_snoc, okCount_snoc, isErr]; omega

theorem pushLoop_measure (ex : List (Option String)) (dt : Option String)
    (sub : Nat → SubmitResult) (items : List Item) : ∀ (st : LoopState),
    (pushLoop ex dt sub items st).pushed + (pushLoop ex dt sub items st).skipped
        + errCount (pushLoop ex dt sub items st).attempts
      = st.pushed + st.skipped + errCount st.attempts + items.length := by
  induction items with
  | nil => intro st; simp [pushLoop]
  | cons it rest ih =>
    intro st
    have h := (stepItem_fields ex dt sub st it).1
    rw [pushLoop_cons, ih (stepItem ex dt sub st it)]
    simp only [List.length_cons]
    omega

theorem pushLoop_pushed (ex : List (Option String)) (dt : Option String)
    (sub : Nat → SubmitResult) (items : List Item) : ∀ (st : LoopState),
    (pushLoop ex dt sub items st).pushed + okCount st.attempts
      = st.pushed + okCount (pushLoop ex dt sub items st).attempts := by
  induction items with
  | nil => intro st; simp [pushLoop]
  | cons it rest ih =>
    intro st
    have h := (stepItem_fields ex dt sub st it).2.1
    rw [pushLoop_cons]
    have h2 := ih (stepItem ex dt sub st it)
    omega

theorem pushLoop_skipped (ex : List (Option String)) (dt : Option String)
    (sub : Nat → SubmitResult) (items : List Item) : ∀ (st : LoopState),
    (pushLoop ex dt sub items st).skipped + (pushLoop ex dt sub items st).attempts.length
      = st.skipped + st.attempts.length + items.length := by
  induction items with
  | nil => intro st; simp [pushLoop]
  | cons it rest ih =>
    intro st
    have h := (stepItem_fields ex dt sub st it).2.2
    rw [pushLoop_cons, ih (stepItem ex dt sub st it)]
    simp only [List.length_cons]
    omega

theorem getLast?_append_singleton (l : List α) (a : α) :
    (l ++ [a]).getLast? = some a := by
  rw [List.getLast?_concat]

/-- Characterization of a completed run: the Python return value is `None`,
and the final state's counters are determined by the trace — pushed counts
successful POSTs, skipped plus POSTed items covers all items, failures make
up the difference, and the last log line reports the counts. -/
theorem push_done_inv (items : List Item) (env : PushEnv) (st : LoopState)
    (r : Option SyncResult) (h : push_to_notion items env = .done st r) :
    r = none ∧
    st.pushed + st.skipped + errCount st.attempts = items.length ∧
    st.pushed = okCount st.attempts ∧
    st.skipped + st.attempts.length = items.length ∧
    st.log.getLast? =
      some ("Finished. pushed=" ++ toString st.pushed ++ ", skipped=" ++ toString st.skipped) := by
  unfold push_to_notion at h
  rcases hg : get_existing_notion_titles env.titleFetches [] with e | ⟨existing, log⟩ <;>
    rw [hg] at h
  · exact absurd h (by simp)
  rcases hs : env.schemaFetch with msg | props <;>
    simp only [get_database_properties, hs] at h
  · exact absurd h (by simp)
  rw [PushResult.done.injEq] at h
  obtain ⟨hst, hr⟩ := h
  subst hst
  subst hr
  have hm := pushLoop_measure existing (doiTypeOf props) env.submit items
    { pushed := 0, skipped := 0, attempts := [],
      log := log ++ ["DOI property type: " ++ optToPyStr (doiTypeOf props)] }
  have hp := pushLoop_pushed existing (doiTypeOf props) env.submit items
    { pushed := 0, skipped := 0, attempts := [],
      log := log ++ ["DOI property type: " ++ optToPyStr (doiTypeOf props)] }
  have hsk := pushLoop_skipped existing (doiTypeOf props) env.submit items
    { pushed := 0, skipped := 0, attempts := [],
      log := log ++ ["DOI property type: " ++ optToPyStr (doiTypeOf props)] }
  refine ⟨rfl, ?_, ?_, ?_, ?_⟩
  · simp only [finishLog] at *
    simpa [errCount] using hm
  · simp only [finishLog] at *
    simpa [okCount] using hp
  · simp only [finishLog] at *
    simpa using hsk
  · exact getLast?_append_singleton _ _

/-! ## Further concrete runs used as witnesses -/

/-- An item with a third title, used for runs with a failing submission. -/
def itemC : Item := { title := "Paper C", authors := [], date := "", doi := "" }

/-- An environment whose first creation POST fails with a response body. -/
def envFail : PushEnv :=
  { envAB with
    submit := fun n => if n = 0 then .err { msg := "500 Server Error", detail := some "boom" } else .ok }

/-- The final loop state of the run of `[itemB, itemC]` against `envFail`. -/
def stFail : LoopState :=
  match push_to_notion [itemB, itemC] envFail with
  | .done st _ => st
  | .fatal _ _ => { pushed := 0, skipped := 0, attempts := [], log := [] }

/-- The final loop state of the run of `[itemA, itemB]` against `envAB`. -/
def stAB : LoopState :=
  match push_to_notion [itemA, itemB] envAB with
  | .done st _ => st
  | .fatal _ _ => { pushed := 0, skipped := 0, attempts := [], log := [] }

/-! ## Claim C3 — duplicate suppression against pre-existing remote state -/

/-- C3: an item whose title is in the remote title index increments only the
skip counter and is not submitted, and the index — a plain parameter of the
loop, never rebound — is unchanged; consequently two items of one run with
the same title not pre-existing remotely are both submitted; and in the §8
scenario (existing title "Paper A", items ["Paper A", "Paper B"]) the run
ends with pushed = 1, skipped = 1, only "Paper B" submitted. -/
theorem C3_duplicate_suppression :
    (∀ ex dt sub (st : LoopState) (it : Item), some it.title ∈ ex →
      stepItem ex dt sub st it =
        { st with skipped := st.skipped + 1,
                  log := st.log ++ ["Skipping existing item: " ++ it.title] }) ∧
    (∀ ex dt (st : LoopState) (i1 i2 : Item), i1.title = i2.title →
      some i1.title ∉ ex →
      (pushLoop ex dt (fun _ => .ok) [i1, i2] st).attempts =
        st.attempts ++ [(buildProperties dt i1, .ok), (buildProperties dt i2, .ok)]) ∧
    (doneState (push_to_notion [itemA, itemB] envAB)).map
        (fun st => (st.pushed, st.skipped, st.attempts.map Prod.fst)) =
      some (1, 1, [buildProperties (some "url") itemB]) := by
  refine ⟨?_, ?_, ?_⟩
  · intro ex dt sub st it h
    simp [stepItem, h]
  · intro ex dt st i1 i2 htitle hmem
    have hmem2 : some i2.title ∉ ex := htitle ▸ hmem
    simp [pushLoop, stepItem, hmem, hmem2]
  · rfl

/-- C3 witness: the skip branch at a concrete state and item. -/
theorem C3_witness :
    stepItem [some "Paper A"] none (fun _ => .ok)
        { pushed := 0, skipped := 0, attempts := [], log := [] } itemA =
      { pushed := 0, skipped := 1, attempts := [],
        log := ["Skipping existing item: Paper A"] } :=
  C3_duplicate_suppression.1 [some "Paper A"] none (fun _ => .ok)
    { pushed := 0, skipped := 0, attempts := [], log := [] } itemA (by decide)

/-! ## Claim C4 — per-item failures are isolated -/

/-- C4: a failed submission appends the failure (and the remote-supplied
detail when available) to the log, leaves both counters unchanged, and the
loop still processes every later item; a completed run satisfies
pushed + skipped + failures = total items, so pushed + skipped ≤ total. -/
theorem C4_failure_isolation :
    (∀ ex dt sub (st : LoopState) (it : Item) e, some it.title ∉ ex →
      sub st.attempts.length = .err e →
      stepItem ex dt sub st it =
        { st with attempts := st.attempts ++ [(buildProperties dt it, .err e)],
                  log := st.log ++ submitFailLog it.title e }) ∧
    (∀ ex dt sub (st : LoopState) (it : Item) rest,
      pushLoop ex dt sub (it :: rest) st = pushLoop ex dt sub rest (stepItem ex dt sub st it)) ∧
    (∀ (items : List Item) env (st : LoopState) r, push_to_notion items env = .done st r →
      st.pushed + st.skipped + errCount st.attempts = items.length ∧
      st.pushed + st.skipped ≤ items.length) := by
  refine ⟨?_, ?_, ?_⟩
  · intro ex dt sub st it e hmem hsub
    simp [stepItem, hmem, hsub]
  · intro ex dt sub st it rest
    exact pushLoop_cons ex dt sub it rest st
  · intro items env st r h
    have hinv := push_done_inv items env st r h
    exact ⟨hinv.2.1, by omega⟩

/-- C4 witness: the run of two items against an environment whose first
POST fails has counts satisfying the accounting equation. -/
theorem C4_witness :
    stFail.pushed + stFail.skipped + errCount stFail.attempts = 2 ∧
    stFail.pushed + stFail.skipped ≤ 2 :=
  C4_failure_isolation.2.2 [itemB, itemC] envFail stFail none rfl

/-! ## Claim C1 — what a completed run delivers

The Python function logs the final counts but ends without a `return`
statement: its value is `None`, not the `{pushed, skipped}` record named by
the spec's collaborator interface. The claim is *corrected* accordingly:
the counts are delivered through the final log line only. -/

/-- C1 (counterexample): a concrete completed run whose final counts are
pushed = 1, skipped = 0 returns `None` — not the SyncResult record claimed. -/
theorem C1_cex_returns_none :
    (doneState (push_to_notion [itemB] envAB)).map (fun st => (st.pushed, st.skipped))
        = some (1, 0) ∧
    pushRet (push_to_notion [itemB] envAB) = none ∧
    pushRet (push_to_notion [itemB] envAB) ≠ some { pushed := 1, skipped := 0 } :=
  ⟨rfl, rfl, by decide⟩

/-- C1 (amended): after processing all items the run reports the final
counts in its last log line — pushed equals the number of successful
submissions, and skipped (the duplicate-suppressed items) plus the number
of submission attempts accounts for every item — and the function's value
is `None` rather than the SyncResult. -/
theorem C1_sync_counts :
    ∀ (items : List Item) env (st : LoopState) r, push_to_notion items env = .done st r →
      r = none ∧
      st.pushed = okCount st.attempts ∧
      st.skipped + st.attempts.length = items.length ∧
      st.log.getLast? =
        some ("Finished. pushed=" ++ toString st.pushed ++ ", skipped=" ++ toString st.skipped) := by
  intro items env st r h
  have hinv := push_done_inv items env st r h
  exact ⟨hinv.1, hinv.2.2.1, hinv.2.2.2.1, hinv.2.2.2.2⟩

/-- C1 witness: the amended statement at the concrete §8 run. -/
theorem C1_witness :
    (none : Option SyncResult) = none ∧
    stAB.pushed = okCount stAB.attempts ∧
    stAB.skipped + stAB.attempts.length = ([itemA, itemB] : List Item).length ∧
    stAB.log.getLast? =
      some ("Finished. pushed=" ++ toString stAB.pushed ++ ", skipped=" ++ toString stAB.skipped) :=
  C1_sync_counts [itemA, itemB] envAB stAB none rfl

/-! ## Claim C8 — index/schema failures abort the whole sync -/

theorem fetchTitlesLoop_err (pages : List NPage) (e : String) (rest : List Fetch) :
    ∀ acc log, (∀ p ∈ pages, p.hasMore = true) →
    fetchTitlesLoop (pages.map Fetch.ok ++ Fetch.err e :: rest) acc log =
      .error (e, log ++ ["Failed to fetch existing pages from Notion: " ++ e]) := by
  induction pages with
  | nil => intro acc log _; rfl
  | cons p ps ih =>
    intro acc log hall
    have hp : p.hasMore = true := hall p (by simp)
    simp only [List.map_cons, List.cons_append, fetchTitlesLoop, hp, if_true]
    exact ih _ _ (fun q hq => hall q (by simp [hq]))

/-- C8: a transport error on any page fetch of the title-index build
propagates out of the pagination loop carrying only the error (never a
partial set of titles), and makes `push_to_notion` abort with a `fatal`
result — which holds no trace, so no item was submitted; a schema-fetch
error aborts the same way; and a run can only complete (`done`) when the
whole index build succeeded. -/
theorem C8_fatal_abort :
    (∀ (pages : List NPage) (e : String) (rest : List Fetch) acc log,
      (∀ p ∈ pages, p.hasMore = true) →
      fetchTitlesLoop (pages.map Fetch.ok ++ Fetch.err e :: rest) acc log =
        .error (e, log ++ ["Failed to fetch existing pages from Notion: " ++ e])) ∧
    (∀ (items : List Item) (env : PushEnv) (pages : List NPage) (e : String) rest,
      (∀ p ∈ pages, p.hasMore = true) →
      env.titleFetches = pages.map Fetch.ok ++ Fetch.err e :: rest →
      push_to_notion items env =
        .fatal e ["Failed to fetch existing pages from Notion: " ++ e]) ∧
    (∀ (items : List Item) (env : PushEnv) e titles lg,
      get_existing_notion_titles env.titleFetches [] = .ok (titles, lg) →
      env.schemaFetch = .err e →
      push_to_notion items env = .fatal e (lg ++ ["Could not fetch database schema: " ++ e])) ∧
    (∀ (items : List Item) env (st : LoopState) r, push_to_notion items env = .done st r →
      ∃ titles lg, get_existing_notion_titles env.titleFetches [] = .ok (titles, lg)) := by
  refine ⟨fetchTitlesLoop_err, ?_, ?_, ?_⟩
  · intro items env pages e rest hall hf
    unfold push_to_notion get_existing_notion_titles
    rw [hf, fetchTitlesLoop_err pages e rest [] [] hall]
    rfl
  · intro items env e titles lg ht hs
    unfold push_to_notion
    rw [ht]
    simp only [get_database_properties, hs]
  · intro items env st r h
    unfold push_to_notion at h
    rcases hg : get_existing_notion_titles env.titleFetches [] with x | ⟨titles, lg⟩ <;>
      rw [hg] at h
    · exact absurd h (by simp)
    · exact ⟨titles, lg, rfl⟩

/-- C8 witness: a concrete run whose second page fetch fails is fatal. -/
theorem C8_witness :
    push_to_notion [itemB]
        { titleFetches := [Fetch.ok { results := [], hasMore := true }, Fetch.err "boom"]
          schemaFetch := SchemaFetch.ok []
          submit := fun _ => SubmitResult.ok } =
      .fatal "boom" ["Failed to fetch existing pages from Notion: boom"] :=
  C8_fatal_abort.2.1 [itemB] _ [{ results := [], hasMore := true }] "boom" []
    (by simp) rfl

/-! ## Claims C6, C7, C10 — the CSV Record Parser -/

/-- Declarative description of what one semicolon-separated entry (already
stripped) contributes to the author list: nothing when empty; `"First Last"`
when it contains a comma; itself otherwise. -/
def entryResult (a : String) : Option String :=
  if ',' ∈ a.data then
    match (pySplitOnce ',' a).map pyStrip with
    | [last, first] => some (first ++ " " ++ last)
    | _ => some a
  else if a.isEmpty then none
  else some a

theorem splitOnce_of_mem (l : List Char) (h : ',' ∈ l) :
    ∃ a b, splitOnceChars ',' l = some (a, b) := by
  induction l with
  | nil => cases h
  | cons c rest ih =>
    by_cases hc : c = ','
    · exact ⟨[], rest, by simp [splitOnceChars, hc]⟩
    · have hr : ',' ∈ rest := by
        rcases List.mem_cons.mp h with h1 | h1
        · exact absurd h1.symm hc
        · exact h1
      obtain ⟨a, b, hab⟩ := ih hr
      exact ⟨c :: a, b, by simp [splitOnceChars, hc, hab]⟩

theorem mk_data_eq (s : String) : String.mk s.data = s := rfl

theorem processAuthor_eq (acc : List String) (raw : String) :
    processAuthor acc raw = acc ++ (entryResult (pyStrip raw)).toList := by
  unfold processAuthor entryResult
  by_cases hc : ',' ∈ (pyStrip raw).data
  · rcases hm : (pySplitOnce ',' (pyStrip raw)).map pyStrip with _ | ⟨x, _ | ⟨y, _ | ⟨z, zs⟩⟩⟩ <;>
      simp [hc, hm]
  · by_cases he : (pyStrip raw).isEmpty <;> simp [hc, he]

theorem foldl_processAuthor (entries : List String) : ∀ (acc : List String),
    entries.foldl processAuthor acc = acc ++ (entries.map pyStrip).filterMap entryResult := by
  induction entries with
  | nil => intro acc; simp
  | cons e es ih =>
    intro acc
    rw [List.foldl_cons, ih (processAuthor acc e), processAuthor_eq]
    rcases h : entryResult (pyStrip e) with _ | v <;>
      simp [List.filterMap_cons, h]

theorem splitOnce_append (l r : List Char) (h : ',' ∉ l) :
    splitOnceChars ',' (l ++ ',' :: r) = some (l, r) := by
  induction l with
  | nil => simp [splitOnceChars]
  | cons c cs ih =>
    have hc : ¬c = ',' := fun hc => h (by simp [hc])
    have hcs : ',' ∉ cs := fun hm => h (by simp [hm])
    simp [splitOnceChars, hc, ih hcs]

/-- C6: the author list of a row is the semicolon-split of the author field
with each entry stripped, where an entry containing a comma of the form
"Last, First" becomes "First Last", an entry without a comma is kept as is,
and an empty entry is omitted; in particular
"Doe, Jane; Smith, Bob" parses to ["Jane Doe", "Bob Smith"]. -/
theorem C6_author_parsing :
    parseAuthors "Doe, Jane; Smith, Bob" = ["Jane Doe", "Bob Smith"] ∧
    (∀ field, parseAuthors field = ((pySplitChar ';' field).map pyStrip).filterMap entryResult) ∧
    (∀ a : String, ',' ∉ a.data → a.isEmpty = false → entryResult a = some a) ∧
    (∀ a : String, a.isEmpty = true → entryResult a = none) ∧
    (∀ last first : String, ',' ∉ last.data →
      entryResult (last ++ "," ++ first) = some (pyStrip first ++ " " ++ pyStrip last)) := by
  refine ⟨by decide, ?_, ?_, ?_, ?_⟩
  · intro field
    exact foldl_processAuthor (pySplitChar ';' field) []
  · intro a hnc he
    simp [entryResult, hnc, he]
  · intro a he
    have ha : a = "" := (String.isEmpty_iff a).mp he
    subst ha
    decide
  · intro last first h
    have hdata : (last ++ "," ++ first).data = last.data ++ ',' :: first.data := by
      simp [String.data_append]
    have hmem : ',' ∈ (last ++ "," ++ first).data := by
      rw [hdata]; simp
    have hsplit : splitOnceChars ',' (last.data ++ ',' :: first.data) = some (last.data, first.data) :=
      splitOnce_append _ _ h
    simp [entryResult, hmem, pySplitOnce, hdata, hsplit, mk_data_eq]

/-- C6 witness: the comma rule at a concrete "Last, First" entry. -/
theorem C6_witness :
    entryResult ("Doe" ++ "," ++ " Jane") = some (pyStrip " Jane" ++ " " ++ pyStrip "Doe") :=
  C6_author_parsing.2.2.2.2 "Doe" " Jane" (by decide)

/-- C7: every item produced by the CSV parser has a non-empty title; the
output is exactly the rows with a truthy `Title`, turned into items in row
order with no de-duplication; and `Title` is falsy precisely when the field
is absent or the empty string. -/
theorem C7_title_invariant :
    (∀ (rows : List Row) (it : Item), it ∈ parse_zotero_csv rows → it.title ≠ "") ∧
    (∀ rows : List Row, parse_zotero_csv rows =
      rows.filterMap (fun r => if pyTruthy r.title then some (rowItem r) else none)) ∧
    (∀ r : Row, pyTruthy r.title = false ↔ (r.title = none ∨ r.title = some "")) := by
  have hfold : ∀ (rows : List Row) (acc : List Item),
      rows.foldl (fun items row => if pyTruthy row.title then items ++ [rowItem row] else items) acc
        = acc ++ rows.filterMap (fun r => if pyTruthy r.title then some (rowItem r) else none) := by
    intro rows
    induction rows with
    | nil => intro acc; simp
    | cons r rs ih =>
      intro acc
      rw [List.foldl_cons, ih]
      rcases h : pyTruthy r.title <;> simp [List.filterMap_cons, h]
  have hchar : ∀ r : Row, pyTruthy r.title = false ↔ (r.title = none ∨ r.title = some "") := by
    intro r
    rcases r.title with _ | s
    · simp [pyTruthy]
    · simp [pyTruthy, String.isEmpty_iff]
  refine ⟨?_, fun rows => hfold rows [], hchar⟩
  intro rows it hmem
  rw [show parse_zotero_csv rows = _ from hfold rows []] at hmem
  simp only [List.nil_append, List.mem_filterMap] at hmem
  obtain ⟨r, _, hr⟩ := hmem
  rcases ht : pyTruthy r.title with _ | _
  · rw [ht] at hr; simp at hr
  · rw [ht] at hr
    simp only [if_true] at hr
    obtain rfl : rowItem r = it := Option.some.inj hr
    rcases hs : r.title with _ | s
    · rw [hs] at ht; simp [pyTruthy] at ht
    · have hne : s ≠ "" := by
        intro hs0
        rw [hs, hs0] at ht
        exact absurd ht (by decide)
      simpa [rowItem, hs] using hne

/-- C7 witness: a concrete parsed item has a non-empty title. -/
theorem C7_witness :
    ({ title := "A", authors := ["Jane Doe", "Bob Smith"], date := "", doi := "" } : Item).title ≠ "" :=
  C7_title_invariant.1
    [{ title := some "A", author := some "Doe, Jane; Smith, Bob", date := none, doi := none }]
    { title := "A", authors := ["Jane Doe", "Bob Smith"], date := "", doi := "" }
    (by decide)

/-- C10: splitting an author entry that contains a comma with
`split(',', 1)` always yields exactly two parts, so the unpacking in
`last, first = ...` cannot raise and the `except ValueError` fallback is
unreachable: every entry with a comma takes the "First Last" branch. -/
theorem C10_author_split_total :
    (∀ a : String, ',' ∈ a.data → (pySplitOnce ',' a).length = 2) ∧
    (∀ (acc : List String) (raw : String), ',' ∈ (pyStrip raw).data →
      ∃ last first, (pySplitOnce ',' (pyStrip raw)).map pyStrip = [last, first] ∧
        processAuthor acc raw = acc ++ [first ++ " " ++ last]) := by
  constructor
  · intro a h
    obtain ⟨x, y, hxy⟩ := splitOnce_of_mem a.data h
    simp [pySplitOnce, hxy]
  · intro acc raw h
    obtain ⟨x, y, hxy⟩ := splitOnce_of_mem (pyStrip raw).data h
    refine ⟨pyStrip ⟨x⟩, pyStrip ⟨y⟩, by simp [pySplitOnce, hxy], ?_⟩
    simp [processAuthor, h, pySplitOnce, hxy]

/-- C10 witness: the two-part split at a concrete entry with a comma. -/
theorem C10_witness : (pySplitOnce ',' "Doe, Jane").length = 2 :=
  C10_author_split_total.1 "Doe, Jane" (by decide)

/-! ## Claims C5 and C9 — the DOI field of a creation request -/

theorem pyStrip_empty : pyStrip "" = "" := rfl

/-- The DOI entry of the constructed properties, as a function of the
stripped DOI string: absent when it strips to empty, otherwise present with
the `https://doi.org/` rewrite applied exactly when the stripped value does
not start with `"http"`. -/
theorem buildProperties_doi (dt : Option String) (item : Item) :
    (buildProperties dt item).lookup "DOI" =
      (if pyStrip item.doi = "" then none
       else some (doiProp dt
         (if pyStartsWith (pyStrip item.doi) "http" then pyStrip item.doi
          else "https://doi.org/" ++ pyStrip item.doi))) := by
  have ht : (("DOI" == "Title") : Bool) = false := by decide
  have ha : (("DOI" == "Authors") : Bool) = false := by decide
  have hdk : (("DOI" == "Date") : Bool) = false := by decide
  have hdd : (("DOI" == "DOI") : Bool) = true := by decide
  unfold buildProperties
  by_cases h0 : item.doi.isEmpty
  · have hdoi : item.doi = "" := (String.isEmpty_iff _).mp h0
    rcases hd : format_date item.date with _ | d <;>
      simp [hdoi, hd, pyStrip_empty, List.lookup, ht, ha, hdk]
  · have h0' : item.doi.isEmpty = false := by
      rcases h : item.doi.isEmpty with _ | _
      · rfl
      · exact absurd h h0
    by_cases hdv : (pyStrip item.doi).isEmpty
    · have hdv' : pyStrip item.doi = "" := (String.isEmpty_iff _).mp hdv
      rcases hd : format_date item.date with _ | d <;>
        simp [h0', hd, hdv, hdv', List.lookup, ht, ha, hdk]
    · have hdv2 : pyStrip item.doi ≠ "" := fun he =>
        hdv (by rw [he]; rfl)
      rcases hd : format_date item.date with _ | d <;>
        simp [h0', hd, hdv, hdv2, List.lookup, ht, ha, hdk, hdd]

/-- C5 (counterexample): an item whose DOI string is non-empty but consists
of whitespace only gets no DOI field, refuting the claimed "iff the DOI
string is non-empty". -/
theorem C5_cex_whitespace_doi :
    ({ title := "T", authors := [], date := "", doi := " " } : Item).doi ≠ "" ∧
    (buildProperties (some "rich_text")
        { title := "T", authors := [], date := "", doi := " " }).lookup "DOI" = none := by
  constructor
  · decide
  · decide

/-- C5 (amended): a DOI field is included iff the item's DOI string is
non-empty after stripping whitespace; the value is the stripped DOI when it
already starts with "http", else it is rewritten to a full
`https://doi.org/...` URL; it is encoded as a URL value exactly when the
effective DOI field type is "url" and as a rich-text value otherwise; and
the effective type is the schema map's entry for "DOI" when present, with a
rich-text default otherwise. -/
theorem C5_doi_field :
    (∀ (dt : Option String) (item : Item),
      ((buildProperties dt item).lookup "DOI").isSome = true ↔ pyStrip item.doi ≠ "") ∧
    (∀ (dt : Option String) (item : Item), pyStrip item.doi ≠ "" →
      (buildProperties dt item).lookup "DOI" =
        some (doiProp dt
          (if pyStartsWith (pyStrip item.doi) "http" then pyStrip item.doi
           else "https://doi.org/" ++ pyStrip item.doi))) ∧
    (∀ u : String, doiProp (some "url") u = .url u) ∧
    (∀ (dt : Option String) (u : String), dt ≠ some "url" → doiProp dt u = .richText u) ∧
    (∀ (props : List (String × Option String)) (v : Option String),
      props.lookup "DOI" = some v → doiTypeOf props = v) ∧
    (∀ props : List (String × Option String),
      props.lookup "DOI" = none → doiTypeOf props = some "rich_text") := by
  refine ⟨?_, ?_, ?_, ?_, ?_, ?_⟩
  · intro dt item
    rw [buildProperties_doi]
    by_cases h : pyStrip item.doi = "" <;> simp [h]
  · intro dt item h
    rw [buildProperties_doi]
    simp [h]
  · intro u
    simp [doiProp]
  · intro dt u h
    simp [doiProp, h]
  · intro props v h
    simp [doiTypeOf, h]
  · intro props h
    simp [doiTypeOf, h]

/-- C5 witness: a concrete bare DOI with a "url"-typed field. -/
theorem C5_witness :
    (buildProperties (some "url")
        { title := "T", authors := [], date := "", doi := "10.1/xyz" }).lookup "DOI" =
      some (doiProp (some "url")
        (if pyStartsWith (pyStrip "10.1/xyz") "http" then pyStrip "10.1/xyz"
         else "https://doi.org/" ++ pyStrip "10.1/xyz")) :=
  C5_doi_field.2.1 (some "url")
    { title := "T", authors := [], date := "", doi := "10.1/xyz" } (by decide)

/-- C9: whether the DOI value is taken verbatim is decided by the
four-character test `startswith("http")` alone: any stripped DOI beginning
with "http" — URL or not — is submitted unchanged, and the
`https://doi.org/` rewrite happens exactly when that test fails. -/
theorem C9_http_test_is_plain_test :
    (∀ (dt : Option String) (item : Item), pyStartsWith (pyStrip item.doi) "http" = true →
      (buildProperties dt item).lookup "DOI" = some (doiProp dt (pyStrip item.doi))) ∧
    (∀ (dt : Option String) (item : Item), pyStrip item.doi ≠ "" →
      pyStartsWith (pyStrip item.doi) "http" = false →
      (buildProperties dt item).lookup "DOI" =
        some (doiProp dt ("https://doi.org/" ++ pyStrip item.doi))) := by
  constructor
  · intro dt item h
    have hne : pyStrip item.doi ≠ "" := by
      intro he
      rw [he] at h
      exact absurd h (by decide)
    rw [buildProperties_doi]
    simp [hne, h]
  · intro dt item hne h
    rw [buildProperties_doi]
    simp [hne, h]

/-- C9 witness: the non-URL string "httpfoo/10.1" passes the test and is
submitted verbatim, with no doi.org rewrite. -/
theorem C9_witness :
    (buildProperties (some "rich_text")
        { title := "T", authors := [], date := "", doi := "httpfoo/10.1" }).lookup "DOI" =
      some (doiProp (some "rich_text") (pyStrip "httpfoo/10.1")) :=
  C9_http_test_is_plain_test.1 (some "rich_text")
    { title := "T", authors := [], date := "", doi := "httpfoo/10.1" } (by decide)

/-! ## Claim C2 — the Date Normalizer -/

theorem daysInMonth_le_31 (y m : Nat) : daysInMonth y m ≤ 31 := by
  unfold daysInMonth
  split
  · split <;> omega
  · split <;> omega

theorem validDate_bounds {y m d : Nat} (h : validDate y m d = true) :
    1 ≤ y ∧ y ≤ 9999 ∧ 1 ≤ m ∧ m ≤ 12 ∧ 1 ≤ d ∧ d ≤ 31 := by
  have h31 := daysInMonth_le_31 y m
  unfold validDate at h
  simp only [Bool.and_eq_true, decide_eq_true_eq] at h
  omega

theorem strptimeYMD_valid {s : String} {y m d : Nat}
    (h : strptimeYMD s = some (y, m, d)) : validDate y m d = true := by
  unfold strptimeYMD at h
  rcases hm : matchYMD s.data with _ | ⟨y2, m2, d2, rest⟩ <;> rw [hm] at h
  · exact absurd h (by simp)
  · rcases rest with _ | ⟨c, cs⟩
    · rcases hv : validDate y2 m2 d2 with _ | _ <;> simp [hv] at h
      obtain ⟨rfl, rfl, rfl⟩ := h
      exact hv
    · exact absurd h (by simp)

theorem strptimeYM_valid {s : String} {y m : Nat}
    (h : strptimeYM s = some (y, m)) : validDate y m 1 = true := by
  unfold strptimeYM at h
  rcases hm : matchYM s.data with _ | ⟨y2, m2, rest⟩ <;> rw [hm] at h
  · exact absurd h (by simp)
  · rcases rest with _ | ⟨c, cs⟩
    · rcases hv : validDate y2 m2 1 with _ | _ <;> simp [hv] at h
      obtain ⟨rfl, rfl⟩ := h
      exact hv
    · exact absurd h (by simp)

theorem strptimeMY_valid {s : String} {y m : Nat}
    (h : strptimeMY s = some (y, m)) : validDate y m 1 = true := by
  unfold strptimeMY at h
  rcases hm : matchMY s.data with _ | ⟨m2, y2, rest⟩ <;> rw [hm] at h
  · exact absurd h (by simp)
  · rcases rest with _ | ⟨c, cs⟩
    · rcases hv : validDate y2 m2 1 with _ | _ <;> simp [hv] at h
      obtain ⟨rfl, rfl⟩ := h
      exact hv
    · exact absurd h (by simp)

theorem strptimeY_valid {s : String} {y : Nat}
    (h : strptimeY s = some y) : validDate y 1 1 = true := by
  unfold strptimeY at h
  rcases hm : parseY4 s.data with _ | ⟨y2, rest⟩ <;> rw [hm] at h
  · exact absurd h (by simp)
  · rcases rest with _ | ⟨c, cs⟩
    · rcases hv : validDate y2 1 1 with _ | _ <;> simp [hv] at h
      subst h
      exact hv
    · exact absurd h (by simp)

theorem format_date_of_empty {s : String} (h : s.isEmpty = true) :
    format_date s = none := by
  unfold format_date
  rw [h]
  rfl

/-- On a non-empty input, `format_date` is the four-way cascade of the
`strptime` attempts in source order. -/
theorem format_date_eq (s : String) (h : s.isEmpty = false) :
    format_date s =
      (match strptimeYMD s with
       | some (y, m, d) => some (fmtYMD y m d)
       | none =>
         match strptimeYM s with
         | some (y, m) => some (fmtYMD y m 1)
         | none =>
           match strptimeMY s with
           | some (y, m) => some (fmtYMD y m 1)
           | none =>
             match strptimeY s with
             | some y => some (fmtYMD y 1 1)
             | none => none) := by
  unfold format_date
  rw [h]
  rfl

theorem isEmpty_false_of_YMD {s : String} {y m d : Nat}
    (h : strptimeYMD s = some (y, m, d)) : s.isEmpty = false := by
  rcases he : s.isEmpty with _ | _
  · rfl
  · rw [(String.isEmpty_iff s).mp he] at h
    rw [show strptimeYMD "" = none from rfl] at h
    exact Option.noConfusion h

theorem isEmpty_false_of_YM {s : String} {y m : Nat}
    (h : strptimeYM s = some (y, m)) : s.isEmpty = false := by
  rcases he : s.isEmpty with _ | _
  · rfl
  · rw [(String.isEmpty_iff s).mp he] at h
    rw [show strptimeYM "" = none from rfl] at h
    exact Option.noConfusion h

theorem isEmpty_false_of_MY {s : String} {y m : Nat}
    (h : strptimeMY s = some (y, m)) : s.isEmpty = false := by
  rcases he : s.isEmpty with _ | _
  · rfl
  · rw [(String.isEmpty_iff s).mp he] at h
    rw [show strptimeMY "" = none from rfl] at h
    exact Option.noConfusion h

theorem isEmpty_false_of_Y {s : String} {y : Nat}
    (h : strptimeY s = some y) : s.isEmpty = false := by
  rcases he : s.isEmpty with _ | _
  · rfl
  · rw [(String.isEmpty_iff s).mp he] at h
    rw [show strptimeY "" = none from rfl] at h
    exact Option.noConfusion h

/-- C2: the Date Normalizer on the reference inputs of the spec; the
first-listed format that parses determines the output, with day and month
defaulting to 01 when the format lacks them; every produced value is a
zero-padded `YYYY-MM-DD` rendering of an in-range calendar date; the
sentinel for "no usable date" is `None`, returned exactly when the input is
empty or no format accepts it (the embedding is a total function: the
`ValueError`s of `strptime` are caught in the source and appear here only
as `none` branches, so no input can raise). -/
theorem C2_format_date :
    format_date "2020-05-07" = some "2020-05-07" ∧
    format_date "2020-05" = some "2020-05-01" ∧
    format_date "05/2020" = some "2020-05-01" ∧
    format_date "2020" = some "2020-01-01" ∧
    format_date "not a date" = none ∧
    format_date "" = none ∧
    (∀ (s : String) (y m d : Nat), strptimeYMD s = some (y, m, d) →
      format_date s = some (fmtYMD y m d)) ∧
    (∀ (s : String) (y m : Nat), strptimeYMD s = none → strptimeYM s = some (y, m) →
      format_date s = some (fmtYMD y m 1)) ∧
    (∀ (s : String) (y m : Nat), strptimeYMD s = none → strptimeYM s = none →
      strptimeMY s = some (y, m) → format_date s = some (fmtYMD y m 1)) ∧
    (∀ (s : String) (y : Nat), strptimeYMD s = none → strptimeYM s = none →
      strptimeMY s = none → strptimeY s = some y → format_date s = some (fmtYMD y 1 1)) ∧
    (∀ (s : String) (out : String), format_date s = some out →
      ∃ y m d, (1 ≤ y ∧ y ≤ 9999 ∧ 1 ≤ m ∧ m ≤ 12 ∧ 1 ≤ d ∧ d ≤ 31) ∧ out = fmtYMD y m d) ∧
    (∀ s : String, s ≠ "" →
      (format_date s = none ↔
        strptimeYMD s = none ∧ strptimeYM s = none ∧ strptimeMY s = none ∧ strptimeY s = none)) := by
  refine ⟨by decide, by decide, by decide, by decide, by decide, rfl, ?_, ?_, ?_, ?_, ?_, ?_⟩
  · intro s y m d h
    rw [format_date_eq s (isEmpty_false_of_YMD h), h]
  · intro s y m h1 h2
    rw [format_date_eq s (isEmpty_false_of_YM h2), h1, h2]
  · intro s y m h1 h2 h3
    rw [format_date_eq s (isEmpty_false_of_MY h3), h1, h2, h3]
  · intro s y h1 h2 h3 h4
    rw [format_date_eq s (isEmpty_false_of_Y h4), h1, h2, h3, h4]
  · intro s out h
    rcases he : s.isEmpty with _ | _
    swap
    · rw [format_date_of_empty he] at h
      exact Option.noConfusion h
    rw [format_date_eq s he] at h
    rcases h1 : strptimeYMD s with _ | ⟨y, m, d⟩ <;> rw [h1] at h
    case _ =>
      rcases h2 : strptimeYM s with _ | ⟨y, m⟩ <;> rw [h2] at h
      case _ =>
        rcases h3 : strptimeMY s with _ | ⟨y, m⟩ <;> rw [h3] at h
        case _ =>
          rcases h4 : strptimeY s with _ | y <;> rw [h4] at h
          · exact absurd h (by simp)
          · obtain rfl : fmtYMD y 1 1 = out := Option.some.inj h
            exact ⟨y, 1, 1, validDate_bounds (strptimeY_valid h4), rfl⟩
        case _ =>
          obtain rfl : fmtYMD y m 1 = out := Option.some.inj h
          exact ⟨y, m, 1, validDate_bounds (strptimeMY_valid h3), rfl⟩
      case _ =>
        obtain rfl : fmtYMD y m 1 = out := Option.some.inj h
        exact ⟨y, m, 1, validDate_bounds (strptimeYM_valid h2), rfl⟩
    case _ =>
      obtain rfl : fmtYMD y m d = out := Option.some.inj h
      exact ⟨y, m, d, validDate_bounds (strptimeYMD_valid h1), rfl⟩
  · intro s hs
    have hne : s.isEmpty = false := by
      rcases he : s.isEmpty with _ | _
      · rfl
      · exact absurd ((String.isEmpty_iff s).mp he) hs
    rw [format_date_eq s hne]
    constructor
    · intro h
      rcases h1 : strptimeYMD s with _ | ⟨y, m, d⟩ <;> rw [h1] at h
      swap
      · exact absurd h (by simp)
      rcases h2 : strptimeYM s with _ | ⟨y, m⟩ <;> rw [h2] at h
      swap
      · exact absurd h (by simp)
      rcases h3 : strptimeMY s with _ | ⟨y, m⟩ <;> rw [h3] at h
      swap
      · exact absurd h (by simp)
      rcases h4 : strptimeY s with _ | y <;> rw [h4] at h
      swap
      · exact absurd h (by simp)
      exact ⟨rfl, rfl, rfl, rfl⟩
    · rintro ⟨h1, h2, h3, h4⟩
      rw [h1, h2, h3, h4]

/-- C2 witness: the highest-priority format applied to a full date. -/
theorem C2_witness : format_date "1999-12-31" = some (fmtYMD 1999 12 31) :=
  C2_format_date.2.2.2.2.2.2.1 "1999-12-31" 1999 12 31 (by decide)

end Zotion
